import Mathlib

/-!
Shallow embedding of the espnow-bridge Go package (file `bridge.go`):
the frame reassembler state machine (`reassembleMessages`), the link
writer (`writeBytes`), the peer-table operations (`AddPeer`,
`RemovePeer`) and `WaitForConnected`.

Bytes are modelled as `Nat` values (with `< 256` hypotheses where a
claim needs them); byte streams are `List Nat`.  Go channels consumed
by the reassembler are modelled as a finite input list: exhausting the
list corresponds to the channel being closed, upon which the goroutine
returns.  Channel sends (`reset <- true`, `sendPeers <- true`,
`output <- msg`) are modelled as an emitted event trace.
-/

namespace EspNowBridge

/-- An inbound or outbound application message, from `type Message struct`
in the source: a 6-byte hardware address plus a payload. -/
structure Message where
  Mac : List Nat
  Data : List Nat
deriving DecidableEq, Repr

/-- One configured remote radio endpoint, from `type peer struct`. -/
structure Peer where
  mac : List Nat
  wifiChannel : Nat
deriving DecidableEq, Repr

/-! ### CRC-16/XMODEM

Modelled from the spec: the Go code calls the external library
`github.com/snksoft/crc` with `crc.XMODEM` (not part of this
repository); the spec names the function CRC-16/XMODEM, i.e. the
16-bit CRC with polynomial 0x1021, initial value 0, no reflection and
no final xor, computed over the payload bytes only. -/

/-- One shift step of the CRC-16/XMODEM computation on a 16-bit register. -/
def crcShift (acc : Nat) : Nat :=
  if 32768 ≤ acc then ((acc <<< 1) ^^^ 0x1021) % 65536 else (acc <<< 1) % 65536

/-- Consume one input byte: xor it into the high register byte, then
shift eight times. -/
def crc16Step (acc b : Nat) : Nat :=
  let start := (acc ^^^ (b <<< 8)) % 65536
  crcShift (crcShift (crcShift (crcShift (crcShift (crcShift (crcShift (crcShift start)))))))

/-- CRC-16/XMODEM over a byte sequence, starting from register 0. -/
def crc16 (data : List Nat) : Nat :=
  data.foldl crc16Step 0

theorem crcShift_lt (acc : Nat) : crcShift acc < 65536 := by
  unfold crcShift
  split <;> exact Nat.mod_lt _ (by norm_num)

theorem crc16Step_lt (acc b : Nat) : crc16Step acc b < 65536 :=
  crcShift_lt _

theorem crc16_foldl_lt (data : List Nat) : ∀ acc, acc < 65536 → data.foldl crc16Step acc < 65536 := by
  induction data with
  | nil => intro acc h; simpa using h
  | cons b tl ih =>
    intro acc _
    simpa using ih (crc16Step acc b) (crc16Step_lt acc b)

theorem crc16_lt (data : List Nat) : crc16 data < 65536 :=
  crc16_foldl_lt data 0 (by norm_num)

set_option maxRecDepth 4000 in
/-- Sanity check against the standard CRC-16/XMODEM test vector:
the ASCII string "123456789" has CRC 0x31C3. -/
theorem crc16_check_value :
    crc16 [0x31, 0x32, 0x33, 0x34, 0x35, 0x36, 0x37, 0x38, 0x39] = 0x31C3 := by
  decide

/-! ### Frame reassembler (`reassembleMessages` in the source)

The channel sends of the goroutine are modelled as an event trace; the
shared `*active` flag is threaded through explicitly and its value at
goroutine exit is returned alongside the trace. -/

/-- The fixed 7-byte activation marker (`activationHeader` in the source). -/
def activationHeader : List Nat := [0x11, 0x22, 0x33, 0x44, 0x55, 0x66, 0x77]

/-- A channel send performed by the reassembler goroutine:
a reset request, a peer-table-push request, or a decoded message. -/
inductive BridgeEvent where
  | reset
  | sendPeersReq
  | msg (m : Message)
deriving DecidableEq, Repr

/-- The inner scanning loop of `reassembleMessages` while not active:
advance a match counter on each byte equal to the next expected marker
byte, reset the counter to zero on a mismatch (the consumed byte is not
re-examined, exactly as in the source).  Returns the input remaining
after a full 7-byte match, or `none` if the input is exhausted first
(the channel closed, making the goroutine return). -/
def scanMarker (detected : Nat) : List Nat → Option (List Nat)
  | [] => if 7 ≤ detected then some [] else none
  | b :: rest =>
    if 7 ≤ detected then some (b :: rest)
    else if b = activationHeader.getD detected 0 then scanMarker (detected + 1) rest
    else scanMarker 0 rest

/-- The main loop of `reassembleMessages`.  `fuel` bounds the number of
loop iterations (each non-final iteration consumes at least one input
byte, so `input.length + 1` is always enough); `active` is the shared
connection flag.  Returns the trace of channel sends together with the
value of the flag when the goroutine returns.

Per the source: while not active, emit a reset request and scan for the
activation marker; once active, read a 2-byte header.  `55 44` reads
mac(6) + crc(2, low byte first) + len(1) + data(len), recomputes the
CRC-16/XMODEM of the data and on mismatch clears the flag and loops
(emitting no message); on match it emits the message.  `44 33` emits a
peer-table-push request.  Any other header clears the flag and loops.
Exhausting the input mid-frame makes the goroutine return. -/
def reassembleLoop : Nat → Bool → List Nat → List BridgeEvent × Bool
  | 0, active, _ => ([], active)
  | fuel + 1, false, input =>
    match scanMarker 0 input with
    | none => ([BridgeEvent.reset], false)
    | some rest =>
      let r := reassembleLoop fuel true rest
      (BridgeEvent.reset :: r.1, r.2)
  | fuel + 1, true, input =>
    match input with
    | h0 :: h1 :: rest =>
      if h0 = 0x55 ∧ h1 = 0x44 then
        match rest with
        | m0 :: m1 :: m2 :: m3 :: m4 :: m5 :: c0 :: c1 :: sz :: rest2 =>
          if sz ≤ rest2.length then
            let data := rest2.take sz
            if c0 ||| (c1 <<< 8) = crc16 data then
              let r := reassembleLoop fuel true (rest2.drop sz)
              (BridgeEvent.msg { Mac := [m0, m1, m2, m3, m4, m5], Data := data } :: r.1, r.2)
            else
              reassembleLoop fuel false (rest2.drop sz)
          else ([], true)
        | _ => ([], true)
      else if h0 = 0x44 ∧ h1 = 0x33 then
        let r := reassembleLoop fuel true rest
        (BridgeEvent.sendPeersReq :: r.1, r.2)
      else
        reassembleLoop fuel false rest
    | _ => ([], true)

/-- Run the reassembler from its initial (not yet connected) state on a
finite byte stream, with enough fuel for the whole stream. -/
def reassemble (input : List Nat) : List BridgeEvent × Bool :=
  reassembleLoop (input.length + 1) false input

/-- Run the reassembler from the connected state on a finite byte
stream, with enough fuel for the whole stream. -/
def reassembleConnected (input : List Nat) : List BridgeEvent × Bool :=
  reassembleLoop (input.length + 1) true input

/-- The messages delivered into the Inbox along a trace. -/
def messagesOf (evs : List BridgeEvent) : List Message :=
  evs.filterMap fun e =>
    match e with
    | BridgeEvent.msg m => some m
    | _ => none

/-! ### Link writer (`writeBytes` in the source) -/

/-- The 2-byte outbound-message header (`sendMessage` in the source). -/
def sendMessageHeader : List Nat := [0x22, 0x11]

/-- The 4-byte reset frame (`resetMessage` in the source). -/
def resetMessage : List Nat := [0x42, 0x42, 0x42, 0x42]

/-- The 2-byte peer-table-entry header (`addPeer` in the source). -/
def addPeerHeader : List Nat := [0x33, 0x22]

/-- The two CRC bytes the writer transmits, low byte then high byte:
`uint8(crc & 0xFF), uint8((crc >> 8) & 0xFF)` in the source. -/
def crcBytes (data : List Nat) : List Nat :=
  [crc16 data &&& 0xFF, (crc16 data >>> 8) &&& 0xFF]

/-- The full outbound-message frame written by `writeBytes` for one
message: header, 6-byte address, CRC low/high, length byte
(`uint8(len(msg.Data))`, i.e. reduced mod 256), payload. -/
def encodeFrame (mac data : List Nat) : List Nat :=
  sendMessageHeader ++ mac ++ crcBytes data ++ [data.length % 256] ++ data

/-- The bytes written for one peer-table push: one `33 22` frame per
configured peer, in table order. -/
def encodePeerPush (peers : List Peer) : List Nat :=
  (peers.map fun p => addPeerHeader ++ p.mac ++ [p.wifiChannel]).flatten

/-- One event the writer loop can react to in a single iteration. -/
inductive WriterEvent where
  | outboundMsg (m : Message)
  | resetReq
  | sendPeersReq
  | timeout
deriving DecidableEq, Repr

/-- What one iteration of the writer loop does with an event:
write a byte sequence to the connection, abort fatally
(`log.Fatal`, before any byte of the frame is written), or leave the
event unconsumed (the disconnected-state `select` has no case for it). -/
inductive WriterAction where
  | wrote (bytes : List Nat)
  | fatal
  | deferred
deriving DecidableEq, Repr

/-- One iteration of the `writeBytes` loop, from the source.  While
`b.active` is false the `select` services only the reset channel (plus
a 100 ms timeout that writes nothing); outbound messages and peer
pushes are not selectable.  While active: an outbound message with more
than 250 payload bytes hits `log.Fatal` before anything is written,
otherwise the full frame is written; a reset request writes the reset
frame; a peer-push request writes one `33 22` frame per peer. -/
def writeStep (active : Bool) (peers : List Peer) (ev : WriterEvent) : WriterAction :=
  match active with
  | false =>
    match ev with
    | WriterEvent.resetReq => WriterAction.wrote resetMessage
    | WriterEvent.timeout => WriterAction.wrote []
    | _ => WriterAction.deferred
  | true =>
    match ev with
    | WriterEvent.outboundMsg m =>
      if 250 < m.Data.length then WriterAction.fatal
      else WriterAction.wrote (encodeFrame m.Mac m.Data)
    | WriterEvent.resetReq => WriterAction.wrote resetMessage
    | WriterEvent.sendPeersReq => WriterAction.wrote (encodePeerPush peers)
    | WriterEvent.timeout => WriterAction.deferred

/-- A multi-iteration run of the writer loop against the Outbox queue.
Each entry of `flags` is the value of the shared `active` flag at one
loop iteration.  A disconnected iteration leaves the queue untouched
(its `select` cannot receive from the Outbox); a connected iteration
pops the oldest queued message (channels are FIFO) and performs
`writeStep` on it, stopping the run if that is fatal.  Returns the
frames written and the remaining queue. -/
def writerRun : List Bool → List Message → List (List Nat) × List Message
  | [], queue => ([], queue)
  | false :: restFlags, queue => writerRun restFlags queue
  | true :: restFlags, [] => writerRun restFlags []
  | true :: restFlags, m :: queue =>
    match writeStep true [] (WriterEvent.outboundMsg m) with
    | WriterAction.wrote bs =>
      let r := writerRun restFlags queue
      (bs :: r.1, r.2)
    | _ => ([], m :: queue)

/-! ### Bridge peer-table operations and WaitForConnected -/

/-- The operation `AddPeer` from the source, on the peer-table slice.  Note the
source really does call `append(b.peers)` without the freshly built
`newPeer`, and really does compare against 20. -/
def AddPeer (peers : List Peer) (mac : List Nat) (wifiChannel : Nat) :
    Except String (List Peer) :=
  if 20 ≤ peers.length then
    Except.error "ESP8266 can handle only 19 peers, remove peers first"
  else
    let newPeer : Peer := { mac := mac, wifiChannel := wifiChannel }
    Except.ok peers

/-- The operation `RemovePeer` from the source: find the first peer whose address
equals `mac`; if found, overwrite it with the last entry and truncate
the slice by one; otherwise leave the table unchanged. -/
def RemovePeer (peers : List Peer) (mac : List Nat) : List Peer :=
  match peers.findIdx? (fun p => p.mac == mac) with
  | none => peers
  | some i =>
    (peers.set i (peers.getD (peers.length - 1) { mac := [], wifiChannel := 0 })).take
      (peers.length - 1)

/-- The loop of `WaitForConnected`, with discrete time in
milliseconds: `endTime` is `time.Now().Add(maxWait)` captured on
entry, `now` advances by 10 per `time.Sleep(10 * time.Millisecond)`.
The guard in the source is `end.Before(time.Now())`, i.e. `endTime < now`.
Returns the number of sleep iterations performed before the call
returns; `fuel` bounds the iterations. -/
def waitLoop (active : Bool) (endTime : Nat) : Nat → Nat → Nat
  | _, 0 => 0
  | now, fuel + 1 =>
    if endTime < now then
      if active then 0 else waitLoop active endTime (now + 10) fuel + 1
    else 0

/-- The method `WaitForConnected` from the source, entered at time `t0` with the
connection flag frozen at `active` (the method has a value receiver, so
the flag cannot change during the call).  Returns the number of sleep
iterations performed. -/
def WaitForConnected (active : Bool) (t0 maxWait : Nat) : Nat :=
  waitLoop active (t0 + maxWait) t0 (maxWait + 1)

/-! ### Helper lemmas -/

theorem length_six_exists {α : Type} (l : List α) (h : l.length = 6) :
    ∃ a0 a1 a2 a3 a4 a5, l = [a0, a1, a2, a3, a4, a5] := by
  rcases l with _ | ⟨a0, l⟩
  · simp only [List.length_nil] at h
    omega
  rcases l with _ | ⟨a1, l⟩
  · simp only [List.length_cons, List.length_nil] at h
    omega
  rcases l with _ | ⟨a2, l⟩
  · simp only [List.length_cons, List.length_nil] at h
    omega
  rcases l with _ | ⟨a3, l⟩
  · simp only [List.length_cons, List.length_nil] at h
    omega
  rcases l with _ | ⟨a4, l⟩
  · simp only [List.length_cons, List.length_nil] at h
    omega
  rcases l with _ | ⟨a5, l⟩
  · simp only [List.length_cons, List.length_nil] at h
    omega
  rcases l with _ | ⟨a6, l⟩
  · exact ⟨a0, a1, a2, a3, a4, a5, rfl⟩
  · simp only [List.length_cons] at h
    omega

theorem lor_shiftLeft_eight (a b : Nat) (ha : a < 256) :
    a ||| (b <<< 8) = 2 ^ 8 * b + a := by
  apply Nat.eq_of_testBit_eq
  intro j
  rw [Nat.testBit_lor, Nat.testBit_shiftLeft,
    Nat.testBit_mul_pow_two_add b (show a < 2 ^ 8 by omega) j]
  by_cases hj : j < 8
  · have h8 : ¬8 ≤ j := by omega
    simp [hj, h8]
  · have h8 : 8 ≤ j := by omega
    have hfa : a.testBit j = false :=
      Nat.testBit_lt_two_pow (lt_of_lt_of_le ha (by
        calc (256 : Nat) = 2 ^ 8 := by norm_num
          _ ≤ 2 ^ j := Nat.pow_le_pow_right (by norm_num) h8))
    simp [hj, h8, hfa]

/-- Reading back the two CRC bytes the writer emits, in the way the
reassembler recombines them, recovers the CRC value. -/
theorem crc_recombine (x : Nat) (hx : x < 65536) :
    (x &&& 0xFF) ||| (((x >>> 8) &&& 0xFF) <<< 8) = x := by
  have h255 : (0xFF : Nat) = 2 ^ 8 - 1 := by norm_num
  have h1 : x &&& 0xFF = x % 256 := by
    rw [h255, Nat.and_pow_two_sub_one_eq_mod]
  have hdiv : x >>> 8 = x / 256 := by
    rw [Nat.shiftRight_eq_div_pow]
  have h2 : (x >>> 8) &&& 0xFF = x / 256 := by
    rw [hdiv, h255, Nat.and_pow_two_sub_one_eq_mod]
    norm_num
    omega
  rw [h1, h2, lor_shiftLeft_eight _ _ (Nat.mod_lt _ (by norm_num))]
  norm_num
  omega

/-- Once seven marker bytes have matched, scanning stops immediately. -/
theorem scanMarker_done (d : Nat) (h : 7 ≤ d) (input : List Nat) :
    scanMarker d input = some input := by
  cases input <;> simp [scanMarker, h]

/-- Scanning a stream that starts with the full activation marker
succeeds and consumes exactly the marker. -/
theorem scanMarker_activation (rest : List Nat) :
    scanMarker 0 (activationHeader ++ rest) = some rest := by
  simp [activationHeader, scanMarker, List.getD, scanMarker_done]

/-! ### Claim theorems -/

/-- C1: for every byte stream consisting of the 7-byte activation
marker followed by a well-formed `55 44` frame (6 address bytes, the
payload CRC-16/XMODEM low byte then high byte, the 1-byte payload
length, and the payload) whose CRC is correct, the reassembler, started
in its initial not-connected state, delivers exactly one message
carrying that address and that payload. -/
theorem c1_marker_then_frame_single_message
    (mac data : List Nat) (c0 c1 : Nat)
    (hm : mac.length = 6) (hn : data.length ≤ 255)
    (hcrc : c0 ||| (c1 <<< 8) = crc16 data) :
    messagesOf (reassemble (activationHeader ++
        0x55 :: 0x44 :: (mac ++ c0 :: c1 :: data.length :: data))).1
      = [{ Mac := mac, Data := data }] := by
  obtain ⟨m0, m1, m2, m3, m4, m5, rfl⟩ := length_six_exists mac hm
  have hS : (activationHeader ++
      0x55 :: 0x44 :: ([m0, m1, m2, m3, m4, m5] ++ c0 :: c1 :: data.length :: data)).length
      = 18 + data.length := by
    simp [activationHeader]
    omega
  rw [reassemble, hS]
  have h18 : 18 + data.length = 17 + data.length + 1 := by omega
  have h17 : 17 + data.length = 16 + data.length + 1 := by omega
  simp only [reassembleLoop, scanMarker_activation, List.cons_append, List.nil_append]
  rw [h18]
  simp only [reassembleLoop, hcrc, List.take_length, List.drop_length, le_refl, if_true,
    and_self, if_pos]
  rw [h17]
  simp only [reassembleLoop, messagesOf, List.filterMap]

/-- C1 witness: the concrete scenario from the spec — marker,
`55 44`, mac `AA:BB:CC:DD:EE:FF`, the CRC of "hi" (0x7F0C) low/high,
length 2, payload "hi" — delivers exactly Message{mac, "hi"}. -/
theorem c1_witness :
    messagesOf (reassemble (activationHeader ++
        0x55 :: 0x44 :: ([0xAA, 0xBB, 0xCC, 0xDD, 0xEE, 0xFF] ++
          0x0C :: 0x7F :: ([0x68, 0x69] : List Nat).length :: [0x68, 0x69]))).1
      = [{ Mac := [0xAA, 0xBB, 0xCC, 0xDD, 0xEE, 0xFF], Data := [0x68, 0x69] }] :=
  c1_marker_then_frame_single_message [0xAA, 0xBB, 0xCC, 0xDD, 0xEE, 0xFF] [0x68, 0x69]
    0x0C 0x7F (by decide) (by decide) (by decide)

/-- C2 counterexample: the claim as stated feeds the outbound frame
of the Link Writer — which starts with the outbound header `22 11` — to
the inbound-frame parser of the reassembler.  The parser dispatches on the
header, does not recognise `22 11`, treats it as desynchronization and
emits no message at all (here: the empty payload sent to address
00:00:00:00:00:00 comes back as no message, and the parser drops to
the handshake-await state). -/
theorem c2_counterexample :
    reassembleConnected (encodeFrame [0, 0, 0, 0, 0, 0] []) =
      ([BridgeEvent.reset], false) := by
  decide

/-- C2 (amended): for every payload of at most 250 bytes and every
6-byte address, the frame body the Link Writer encodes (address, CRC
low/high, length, payload) — re-headed with the inbound direction
header `55 44` in place of the outbound `22 11` — is decoded by the
reassembler back to exactly that payload and address, the recomputed
CRC being accepted. -/
theorem c2_encode_decode_roundtrip (mac data : List Nat)
    (hm : mac.length = 6) (hd : data.length ≤ 250) :
    messagesOf (reassembleConnected
        (0x55 :: 0x44 :: (encodeFrame mac data).drop 2)).1
      = [{ Mac := mac, Data := data }] := by
  obtain ⟨m0, m1, m2, m3, m4, m5, rfl⟩ := length_six_exists mac hm
  have hmod : data.length % 256 = data.length := Nat.mod_eq_of_lt (by omega)
  have hacc : (crc16 data &&& 0xFF) ||| (((crc16 data >>> 8) &&& 0xFF) <<< 8) = crc16 data :=
    crc_recombine (crc16 data) (crc16_lt data)
  simp only [encodeFrame, sendMessageHeader, crcBytes, hmod, List.cons_append,
    List.nil_append, List.drop_succ_cons, List.drop_zero]
  have hS : (0x55 :: 0x44 :: m0 :: m1 :: m2 :: m3 :: m4 :: m5 ::
      (crc16 data &&& 0xFF) :: ((crc16 data >>> 8) &&& 0xFF) ::
        data.length :: data).length = 11 + data.length := by
    simp
    omega
  rw [reassembleConnected, hS]
  have h11 : 11 + data.length = 10 + data.length + 1 := by omega
  rw [h11]
  simp only [reassembleLoop, List.cons_append, List.nil_append, hacc, List.take_length,
    List.drop_length, le_refl, if_true, and_self, if_pos]
  simp [messagesOf]

/-- C2 witness for the amended round-trip: address AA:BB:CC:DD:EE:FF
with payload "hi". -/
theorem c2_roundtrip_witness :
    messagesOf (reassembleConnected
        (0x55 :: 0x44 :: (encodeFrame [0xAA, 0xBB, 0xCC, 0xDD, 0xEE, 0xFF] [0x68, 0x69]).drop 2)).1
      = [{ Mac := [0xAA, 0xBB, 0xCC, 0xDD, 0xEE, 0xFF], Data := [0x68, 0x69] }] :=
  c2_encode_decode_roundtrip [0xAA, 0xBB, 0xCC, 0xDD, 0xEE, 0xFF] [0x68, 0x69]
    (by decide) (by decide)

/-- C3: a `55 44` frame whose transmitted CRC does not match the
recomputed CRC-16/XMODEM of the payload produces no message (not even
a partial one): the whole reassembler trace is the initial bootstrap
reset request followed by the reset request it emits after returning
to the handshake-await state, and the shared connection flag is false
when the input ends. -/
theorem c3_crc_mismatch_no_message
    (mac data : List Nat) (c0 c1 : Nat)
    (hm : mac.length = 6) (hn : data.length ≤ 255)
    (hcrc : ¬(c0 ||| (c1 <<< 8) = crc16 data)) :
    reassemble (activationHeader ++
        0x55 :: 0x44 :: (mac ++ c0 :: c1 :: data.length :: data))
      = ([BridgeEvent.reset, BridgeEvent.reset], false) := by
  obtain ⟨m0, m1, m2, m3, m4, m5, rfl⟩ := length_six_exists mac hm
  have hS : (activationHeader ++
      0x55 :: 0x44 :: ([m0, m1, m2, m3, m4, m5] ++ c0 :: c1 :: data.length :: data)).length
      = 18 + data.length := by
    simp [activationHeader]
    omega
  rw [reassemble, hS]
  have h18 : 18 + data.length = 17 + data.length + 1 := by omega
  have h17 : 17 + data.length = 16 + data.length + 1 := by omega
  simp only [reassembleLoop, scanMarker_activation, List.cons_append, List.nil_append]
  rw [h18]
  simp only [reassembleLoop, hcrc, List.take_length, List.drop_length, le_refl, if_true,
    and_self, if_pos, if_false]
  rw [h17]
  simp [reassembleLoop, scanMarker]

/-- C3 witness: the concrete frame of the spec with transmitted CRC bytes
00 00 instead of the true CRC of "hi" yields no message and two reset
requests, ending not-connected. -/
theorem c3_witness :
    reassemble (activationHeader ++
        0x55 :: 0x44 :: ([0xAA, 0xBB, 0xCC, 0xDD, 0xEE, 0xFF] ++
          0 :: 0 :: ([0x68, 0x69] : List Nat).length :: [0x68, 0x69]))
      = ([BridgeEvent.reset, BridgeEvent.reset], false) :=
  c3_crc_mismatch_no_message [0xAA, 0xBB, 0xCC, 0xDD, 0xEE, 0xFF] [0x68, 0x69]
    0 0 (by decide) (by decide) (by decide)

/-- C4: in any writer-loop iteration taken while the session is not
connected, the only way bytes reach the connection is by servicing a
reset request — which transmits exactly the 4-byte reset frame
`42 42 42 42` — or by the 100 ms timeout firing, which writes nothing.
In particular no outbound-message frame (header `22 11`) and no
peer-table frame (header `33 22`) is ever written while disconnected:
those events are left unconsumed. -/
theorem c4_disconnected_writes_only_resets
    (peers : List Peer) (ev : WriterEvent) (bs : List Nat)
    (h : writeStep false peers ev = WriterAction.wrote bs) :
    (ev = WriterEvent.resetReq ∧ bs = resetMessage) ∨
      (ev = WriterEvent.timeout ∧ bs = []) := by
  cases ev <;> simp_all [writeStep]

/-- C4 witness: a disconnected reset request writes the reset frame. -/
theorem c4_witness :
    (WriterEvent.resetReq = WriterEvent.resetReq ∧ resetMessage = resetMessage) ∨
      (WriterEvent.resetReq = WriterEvent.timeout ∧ resetMessage = ([] : List Nat)) :=
  c4_disconnected_writes_only_resets [] WriterEvent.resetReq resetMessage (by decide)

/-- C5: a connected writer iteration servicing an outbound message
whose payload exceeds 250 bytes aborts fatally (`log.Fatal`) before
any byte of the frame is written; with at most 250 payload bytes the
complete frame — header, address, CRC low/high, length, payload — is
transmitted. -/
theorem c5_oversize_fatal_else_full_frame (peers : List Peer) (m : Message) :
    (250 < m.Data.length →
      writeStep true peers (WriterEvent.outboundMsg m) = WriterAction.fatal) ∧
    (m.Data.length ≤ 250 →
      writeStep true peers (WriterEvent.outboundMsg m) =
        WriterAction.wrote (encodeFrame m.Mac m.Data)) := by
  constructor
  · intro h
    simp [writeStep, h]
  · intro h
    simp [writeStep, Nat.not_lt.mpr h]

/-- C5 witness: a 251-byte payload is rejected fatally; the 2-byte
payload "hi" goes out as a complete frame. -/
theorem c5_witness :
    writeStep true []
        (WriterEvent.outboundMsg { Mac := [0, 0, 0, 0, 0, 0], Data := List.replicate 251 0 })
      = WriterAction.fatal ∧
    writeStep true []
        (WriterEvent.outboundMsg { Mac := [0, 0, 0, 0, 0, 0], Data := [0x68, 0x69] })
      = WriterAction.wrote (encodeFrame [0, 0, 0, 0, 0, 0] [0x68, 0x69]) :=
  ⟨(c5_oversize_fatal_else_full_frame []
      { Mac := [0, 0, 0, 0, 0, 0], Data := List.replicate 251 0 }).1
      (by rw [List.length_replicate]; norm_num),
    (c5_oversize_fatal_else_full_frame []
      { Mac := [0, 0, 0, 0, 0, 0], Data := [0x68, 0x69] }).2 (by simp)⟩

/-- C6 evidence of the code bug, evaluating `AddPeer` at the failing
inputs.  First conjunct: adding a peer to an empty table reports
success but leaves the table empty — the source builds `newPeer` and
then calls `append(b.peers)` without it, so nothing is ever appended.
Second conjunct: with 19 entries already in the table the call still
succeeds instead of failing with the table-full error (the source
compares against 20, contradicting its own error message that only 19
peers are supported). -/
theorem c6_addPeer_code_bug :
    AddPeer [] [0xAA, 0xBB, 0xCC, 0xDD, 0xEE, 0xFF] 1 = Except.ok [] ∧
    (AddPeer (List.replicate 19 { mac := [0, 0, 0, 0, 0, 0], wifiChannel := 1 })
        [0xAA, 0xBB, 0xCC, 0xDD, 0xEE, 0xFF] 1
      = Except.ok (List.replicate 19 { mac := [0, 0, 0, 0, 0, 0], wifiChannel := 1 })) := by
  constructor
  · rfl
  · rfl

/-- C8 evidence of the code bug: the loop guard of `WaitForConnected`
is inverted (`end.Before(time.Now())` where `end` is the deadline), so
the loop body is never entered: for every connection state, start time
and timeout the call performs zero sleep iterations and returns
immediately — even when the session is not connected and the timeout
has not yet elapsed, where the claim requires it to keep blocking. -/
theorem c8_waitForConnected_returns_immediately
    (active : Bool) (t0 maxWait : Nat) :
    WaitForConnected active t0 maxWait = 0 := by
  have h : ¬(t0 + maxWait < t0) := by omega
  simp [WaitForConnected, waitLoop, h]

/-- C7: `RemovePeer` on a table containing the given address removes
one matching entry by overwriting it with the last entry and
truncating, so exactly N-1 peers remain and every peer whose address
differs from the removed one is still present; when the address is not
in the table the call is a no-op. -/
theorem c7_removePeer (peers : List Peer) (mac : List Nat) :
    (mac ∉ peers.map Peer.mac → RemovePeer peers mac = peers) ∧
    (mac ∈ peers.map Peer.mac →
      (RemovePeer peers mac).length = peers.length - 1 ∧
      ∀ p ∈ peers, p.mac ≠ mac → p ∈ RemovePeer peers mac) := by
  constructor
  · intro h
    have hnone : peers.findIdx? (fun p => p.mac == mac) = none := by
      rw [List.findIdx?_eq_none_iff]
      intro x hx
      have hne : x.mac ≠ mac := fun he => h (List.mem_map.mpr ⟨x, hx, he⟩)
      simpa using hne
    simp [RemovePeer, hnone]
  · intro h
    obtain ⟨x, hx, hxm⟩ := List.mem_map.mp h
    have hex : ∃ y, y ∈ peers ∧ (fun p => p.mac == mac) y = true :=
      ⟨x, hx, by simpa using hxm⟩
    have hsome := List.findIdx?_eq_some_of_exists hex
    obtain ⟨hi, hpi, -⟩ := List.findIdx?_eq_some_iff_getElem.mp hsome
    set i := peers.findIdx (fun p => p.mac == mac) with hidef
    have hpimac : (peers.get ⟨i, hi⟩).mac = mac := by
      have := hpi
      simp only [List.get_eq_getElem]
      simpa using this
    have hlen1 : 1 ≤ peers.length := by omega
    have hgetD :
        peers.getD (peers.length - 1) { mac := [], wifiChannel := 0 }
          = peers.get ⟨peers.length - 1, by omega⟩ := by
      rw [List.getD_eq_getElem?_getD, List.getElem?_eq_getElem (by omega)]
      simp
    simp only [RemovePeer, hsome]
    constructor
    · simp only [List.length_take, List.length_set]
      omega
    · intro p hp hpmac
      obtain ⟨j, hj, hpj⟩ := List.mem_iff_getElem.mp hp
      have hij : i ≠ j := by
        intro he
        apply hpmac
        rw [← hpj]
        simpa [← he, List.get_eq_getElem] using hpimac
      rw [List.mem_iff_getElem?]
      by_cases hj1 : j < peers.length - 1
      · refine ⟨j, ?_⟩
        rw [List.getElem?_take_of_lt hj1, List.getElem?_set_ne hij,
          List.getElem?_eq_getElem hj, hpj]
      · have hjlast : j = peers.length - 1 := by omega
        have hilt : i < peers.length - 1 := by omega
        refine ⟨i, ?_⟩
        rw [List.getElem?_take_of_lt hilt, List.getElem?_set_self hi, hgetD]
        simp only [List.get_eq_getElem, Option.some.injEq]
        subst hjlast
        exact hpj

/-- C7 witness: removing B from the table [A, B, C] leaves two peers,
with A and C still present; removing an absent address is a no-op. -/
theorem c7_witness :
    (RemovePeer [⟨[1, 1, 1, 1, 1, 1], 1⟩, ⟨[2, 2, 2, 2, 2, 2], 1⟩, ⟨[3, 3, 3, 3, 3, 3], 2⟩]
        [2, 2, 2, 2, 2, 2]).length = 2 ∧
    (⟨[1, 1, 1, 1, 1, 1], 1⟩ : Peer) ∈
      RemovePeer [⟨[1, 1, 1, 1, 1, 1], 1⟩, ⟨[2, 2, 2, 2, 2, 2], 1⟩, ⟨[3, 3, 3, 3, 3, 3], 2⟩]
        [2, 2, 2, 2, 2, 2] ∧
    (⟨[3, 3, 3, 3, 3, 3], 2⟩ : Peer) ∈
      RemovePeer [⟨[1, 1, 1, 1, 1, 1], 1⟩, ⟨[2, 2, 2, 2, 2, 2], 1⟩, ⟨[3, 3, 3, 3, 3, 3], 2⟩]
        [2, 2, 2, 2, 2, 2] := by
  have h := (c7_removePeer
    [⟨[1, 1, 1, 1, 1, 1], 1⟩, ⟨[2, 2, 2, 2, 2, 2], 1⟩, ⟨[3, 3, 3, 3, 3, 3], 2⟩]
    [2, 2, 2, 2, 2, 2]).2 (by decide)
  refine ⟨h.1, ?_, ?_⟩
  · exact h.2 ⟨[1, 1, 1, 1, 1, 1], 1⟩ (by decide) (by decide)
  · exact h.2 ⟨[3, 3, 3, 3, 3, 3], 2⟩ (by decide) (by decide)

/-- Whatever input the marker scan leaves over is part of the original
input. -/
theorem scanMarker_subset (input : List Nat) :
    ∀ d rest, scanMarker d input = some rest → rest ⊆ input := by
  induction input with
  | nil =>
    intro d rest h
    simp only [scanMarker] at h
    split at h <;> simp_all
  | cons a tl ih =>
    intro d rest h
    simp only [scanMarker] at h
    split at h
    · obtain rfl : a :: tl = rest := by simpa using h
      exact List.Subset.refl _
    · split at h
      · exact List.subset_cons_of_subset a (ih _ _ h)
      · exact List.subset_cons_of_subset a (ih _ _ h)

/-- The CRC-16/XMODEM of any run of zero bytes is zero. -/
theorem crc16_replicate_zero : ∀ k, crc16 (List.replicate k 0) = 0
  | 0 => rfl
  | k + 1 => by
    have h0 : crc16Step 0 0 = 0 := by decide
    simpa [crc16, List.replicate_succ, h0] using crc16_replicate_zero k

/-- A connected reassembler decodes one well-formed `55 44` frame into
exactly the message it carries, staying connected. -/
theorem reassembleConnected_wellformed_frame (mac data : List Nat) (c0 c1 : Nat)
    (hm : mac.length = 6) (hcrc : c0 ||| (c1 <<< 8) = crc16 data) :
    reassembleConnected (0x55 :: 0x44 :: (mac ++ c0 :: c1 :: data.length :: data))
      = ([BridgeEvent.msg { Mac := mac, Data := data }], true) := by
  obtain ⟨m0, m1, m2, m3, m4, m5, rfl⟩ := length_six_exists mac hm
  have hS : (0x55 :: 0x44 :: (([m0, m1, m2, m3, m4, m5] : List Nat) ++
      c0 :: c1 :: data.length :: data)).length = 11 + data.length := by
    simp
    omega
  rw [reassembleConnected, hS]
  have h11 : 11 + data.length = 10 + data.length + 1 := by omega
  rw [h11]
  simp only [reassembleLoop, List.cons_append, List.nil_append, hcrc, List.take_length,
    List.drop_length, le_refl, if_true, and_self, if_pos]

/-- C9 counterexample: a syntactically valid inbound frame may carry up
to 255 payload bytes (the length field is a single byte), and the
reassembler delivers such a message without enforcing the 250-byte
bound: a frame with 251 zero payload bytes (whose CRC, 0, is correct)
is accepted and emitted with `len(Data) = 251 > 250`. -/
theorem c9_counterexample :
    messagesOf (reassembleConnected
        (0x55 :: 0x44 :: ([0, 0, 0, 0, 0, 0] ++ 0 :: 0 ::
          (List.replicate 251 (0 : Nat)).length :: List.replicate 251 0))).1
      = [{ Mac := [0, 0, 0, 0, 0, 0], Data := List.replicate 251 0 }] ∧
    250 < (List.replicate 251 (0 : Nat)).length := by
  constructor
  · rw [reassembleConnected_wellformed_frame [0, 0, 0, 0, 0, 0]
      (List.replicate 251 0) 0 0 (by decide) (by rw [crc16_replicate_zero]; decide)]
    rfl
  · rw [List.length_replicate]
    norm_num

/-- C9 (amended): on any byte stream (all elements below 256), every
message the reassembler emits — from any fuel and either state — has a
payload of at most 255 bytes, because the payload length is read from
a single length byte. -/
theorem c9_inbound_payload_le_255 (fuel : Nat) :
    ∀ (active : Bool) (input : List Nat), (∀ b ∈ input, b < 256) →
      ∀ m ∈ messagesOf (reassembleLoop fuel active input).1, m.Data.length ≤ 255 := by
  induction fuel with
  | zero =>
    intro active input hb m hm
    simp [reassembleLoop, messagesOf] at hm
  | succ fuel ih =>
    intro active input hb m hm
    cases active with
    | false =>
      simp only [reassembleLoop] at hm
      cases hscan : scanMarker 0 input with
      | none =>
        rw [hscan] at hm
        simp [messagesOf] at hm
      | some rest =>
        rw [hscan] at hm
        simp only [messagesOf, List.filterMap_cons] at hm
        exact ih true rest
          (fun b hbr => hb b (scanMarker_subset input 0 rest hscan hbr)) m
          (by simpa [messagesOf] using hm)
    | true =>
      rcases input with _ | ⟨h0, _ | ⟨h1, rest⟩⟩
      · simp [reassembleLoop, messagesOf] at hm
      · simp [reassembleLoop, messagesOf] at hm
      · simp only [reassembleLoop] at hm
        by_cases h55 : h0 = 0x55 ∧ h1 = 0x44
        · rw [if_pos h55] at hm
          rcases rest with _ | ⟨m0, _ | ⟨m1, _ | ⟨m2, _ | ⟨m3,
            _ | ⟨m4, _ | ⟨m5, _ | ⟨c0, _ | ⟨c1, _ | ⟨sz, rest2⟩⟩⟩⟩⟩⟩⟩⟩⟩
          · simp [messagesOf] at hm
          · simp [messagesOf] at hm
          · simp [messagesOf] at hm
          · simp [messagesOf] at hm
          · simp [messagesOf] at hm
          · simp [messagesOf] at hm
          · simp [messagesOf] at hm
          · simp [messagesOf] at hm
          · simp [messagesOf] at hm
          · have hsub2 : rest2 ⊆ h0 :: h1 :: m0 :: m1 :: m2 :: m3 :: m4 :: m5 ::
                c0 :: c1 :: sz :: rest2 := by
              intro b hbx
              simp [hbx]
            have hszmem : sz < 256 := hb sz (by simp)
            dsimp only at hm
            by_cases hsz : sz ≤ rest2.length
            · rw [if_pos hsz] at hm
              by_cases hcrc : c0 ||| (c1 <<< 8) = crc16 (rest2.take sz)
              · rw [if_pos hcrc] at hm
                simp only [messagesOf, List.filterMap_cons] at hm
                rcases List.mem_cons.mp hm with hm1 | hm2
                · subst hm1
                  have hlt : (List.take sz rest2).length ≤ sz :=
                    List.length_take_le sz rest2
                  show (List.take sz rest2).length ≤ 255
                  omega
                · exact ih true (rest2.drop sz)
                    (fun b hbr => hb b (hsub2 (List.drop_subset sz rest2 hbr))) m
                    (by simpa [messagesOf] using hm2)
              · rw [if_neg hcrc] at hm
                exact ih false (rest2.drop sz)
                  (fun b hbr => hb b (hsub2 (List.drop_subset sz rest2 hbr))) m hm
            · rw [if_neg hsz] at hm
              simp [messagesOf] at hm
        · rw [if_neg h55] at hm
          have hsub : rest ⊆ h0 :: h1 :: rest := by
            intro b hbx
            simp [hbx]
          by_cases h44 : h0 = 0x44 ∧ h1 = 0x33
          · rw [if_pos h44] at hm
            simp only [messagesOf, List.filterMap_cons] at hm
            exact ih true rest (fun b hbr => hb b (hsub hbr)) m
              (by simpa [messagesOf] using hm)
          · rw [if_neg h44] at hm
            exact ih false rest (fun b hbr => hb b (hsub hbr)) m hm

set_option maxRecDepth 4000 in
/-- C9 witness for the amended bound: the message decoded from the
concrete frame carrying the 2-byte payload "hi" obeys the 255-byte
bound. -/
theorem c9_witness :
    ({ Mac := [0xAA, 0xBB, 0xCC, 0xDD, 0xEE, 0xFF], Data := [0x68, 0x69] } : Message).Data.length
      ≤ 255 :=
  c9_inbound_payload_le_255 14 true
    (0x55 :: 0x44 :: 0xAA :: 0xBB :: 0xCC :: 0xDD :: 0xEE :: 0xFF ::
      0x0C :: 0x7F :: 2 :: [0x68, 0x69]) (by decide)
    { Mac := [0xAA, 0xBB, 0xCC, 0xDD, 0xEE, 0xFF], Data := [0x68, 0x69] } (by decide)

theorem writerRun_inactive (k : Nat) (flags : List Bool) (queue : List Message) :
    writerRun (List.replicate k false ++ flags) queue = writerRun flags queue := by
  induction k with
  | zero => simp
  | succ k ih => simpa [List.replicate_succ, writerRun] using ih

theorem writerRun_active_all (queue : List Message)
    (h : ∀ m ∈ queue, m.Data.length ≤ 250) :
    writerRun (List.replicate queue.length true) queue
      = (queue.map fun m => encodeFrame m.Mac m.Data, []) := by
  induction queue with
  | nil => simp [writerRun]
  | cons m q ih =>
    have hm : m.Data.length ≤ 250 := h m (by simp)
    have hw : writeStep true [] (WriterEvent.outboundMsg m)
        = WriterAction.wrote (encodeFrame m.Mac m.Data) := by
      simp [writeStep, Nat.not_lt.mpr hm]
    have ihq := ih fun x hx => h x (List.mem_cons_of_mem m hx)
    simp only [List.length_cons, List.replicate_succ, writerRun, hw, ihq, List.map_cons]

/-- C10: messages queued in the Outbox while the session is not
connected are never discarded.  A writer run consisting of any number
of disconnected iterations leaves the queue exactly as it was (the
disconnected `select` cannot receive from the Outbox), and once the
session becomes connected the run transmits every queued message as a
full outbound frame, in the order they were queued. -/
theorem c10_outbox_preserved_then_flushed (k : Nat) (queue : List Message)
    (h : ∀ m ∈ queue, m.Data.length ≤ 250) :
    writerRun (List.replicate k false) queue = ([], queue) ∧
    writerRun (List.replicate k false ++ List.replicate queue.length true) queue
      = (queue.map fun m => encodeFrame m.Mac m.Data, []) := by
  constructor
  · simpa [writerRun] using writerRun_inactive k [] queue
  · rw [writerRun_inactive, writerRun_active_all queue h]

/-- C10 witness: two messages queued while disconnected survive three
disconnected iterations untouched and are then sent in order. -/
theorem c10_witness :
    writerRun (List.replicate 3 false)
        [{ Mac := [1, 1, 1, 1, 1, 1], Data := [7] }, { Mac := [2, 2, 2, 2, 2, 2], Data := [8, 9] }]
      = ([], [{ Mac := [1, 1, 1, 1, 1, 1], Data := [7] },
          { Mac := [2, 2, 2, 2, 2, 2], Data := [8, 9] }]) ∧
    writerRun (List.replicate 3 false ++ List.replicate
        ([{ Mac := [1, 1, 1, 1, 1, 1], Data := [7] },
          { Mac := [2, 2, 2, 2, 2, 2], Data := [8, 9] }] : List Message).length true)
        [{ Mac := [1, 1, 1, 1, 1, 1], Data := [7] }, { Mac := [2, 2, 2, 2, 2, 2], Data := [8, 9] }]
      = (([{ Mac := [1, 1, 1, 1, 1, 1], Data := [7] },
          { Mac := [2, 2, 2, 2, 2, 2], Data := [8, 9] }] : List Message).map
            fun m => encodeFrame m.Mac m.Data, []) :=
  c10_outbox_preserved_then_flushed 3
    [{ Mac := [1, 1, 1, 1, 1, 1], Data := [7] }, { Mac := [2, 2, 2, 2, 2, 2], Data := [8, 9] }]
    (by decide)

end EspNowBridge
